import Mathlib

/-!
Shallow embedding of the UniqysKit consensus-core sources:
  - src/packages/blockchain/src/block.ts           (BlockHeader, BlockBody, Block)
  - src/unnamed/part_002                           (legacy Block variant with ValidatorSet body)
  - src/packages/chain-core/src/consensus-engine/timeout.ts (ConsensusTimeout)
  - src/packages/chain-core/src/node.ts            (Node: hello, stop, error handlers)

Byte buffers are lists of naturals; numbers are Nat (with explicit 2^64 bounds
where the code writes UInt64); fallible operations return Option/Except.
Cryptographic hashing is opaque in the sources, so hashing is a parameter
`hashFn : List Nat → Hash` throughout.
-/

namespace UniqysKit

/-! ## Byte-level serialization primitives

Modelled from the spec: the serialize package (not under src/) writes
big-endian fixed-width unsigned integers and raw fixed-width digests into a
buffer; deserialization reads them back off the front of the buffer.
-/

/-- Big-endian serialization of a natural into `w` bytes (most significant
first), as the serialize package's UInt64.serialize does for `w = 8`. -/
def serBE : Nat → Nat → List Nat
  | 0, _ => []
  | w + 1, n => (n / 256 ^ w % 256) :: serBE w n

/-- Accumulator-style big-endian read of `w` bytes from the front of a buffer. -/
def deserBEAux : Nat → Nat → List Nat → Option (Nat × List Nat)
  | 0, acc, l => some (acc, l)
  | w + 1, acc, b :: l => deserBEAux w (acc * 256 + b) l
  | _ + 1, _, [] => none

/-- Big-endian deserialization of a `w`-byte unsigned integer. -/
def deserBE (w : Nat) (l : List Nat) : Option (Nat × List Nat) :=
  deserBEAux w 0 l

/-- Read a fixed-width run of `w` raw bytes off the front of a buffer. -/
def deserBytes (w : Nat) (l : List Nat) : Option (List Nat × List Nat) :=
  if w ≤ l.length then some (l.take w, l.drop w) else none

/-! ## Hash

Modelled from the spec: a Hash is a fixed-width 32-byte digest of a
cryptographic hash over canonical byte serialization, supporting equality;
the signature package holding the Hash class is not under src/. The
cryptographic hash function itself is opaque and is a parameter
`hashFn : List Nat → Hash` of every definition that calls Hash.fromData. -/
structure Hash where
  bytes : List Nat
deriving DecidableEq, Repr

/-- Well-formedness of a digest: exactly 32 bytes wide. -/
def Hash.wf (h : Hash) : Prop := h.bytes.length = 32

instance (h : Hash) : Decidable h.wf := by unfold Hash.wf; infer_instance

/-- Writing a hash appends its 32 raw bytes (fixed width, no length prefix). -/
def Hash.serialize (h : Hash) : List Nat := h.bytes

/-- Reading a hash consumes 32 raw bytes. -/
def Hash.deserialize (l : List Nat) : Option (Hash × List Nat) :=
  match deserBytes 32 l with
  | some (b, r) => some (⟨b⟩, r)
  | none => none

/-- Concrete stand-in digest function used by closed witnesses; any function of
the canonical bytes is admissible since the spec treats hashing as opaque. -/
def modelHash (l : List Nat) : Hash :=
  ⟨serBE 32 (l.foldl (fun a b => 257 * a + b + 1) 0)⟩

/-! ## Generic sequence serialization -/

/-- Concatenate the serializations of a sequence of values, in order. -/
def serList (ser : α → List Nat) : List α → List Nat
  | [] => []
  | x :: xs => ser x ++ serList ser xs

/-- Read exactly `n` consecutive values, threading the unconsumed tail. -/
def deserN (deser : List Nat → Option (α × List Nat)) : Nat → List Nat → Option (List α × List Nat)
  | 0, l => some ([], l)
  | n + 1, l => do
      let (x, l2) ← deser l
      let (xs, l3) ← deserN deser n l2
      return (x :: xs, l3)

/-! ## Transactions, consensus certificates, validator sets

Modelled from the spec: these live in the blockchain package files
transaction.ts and consensus.ts, which are not under src/. A transaction is
{ data: { nonce: u64, payload: bytes }, signature }; a TransactionList is an
ordered sequence of transactions with a Merkle-style root
hash = hash_of_roots(tx_hashes); a Consensus (commit) is
{ round: u32, votes: seq of { validatorIndex, signature, blockHash } }; a
ValidatorSet is an ordered sequence of { address, votingPower: u64 } with a
deterministic root hash. Canonical serialization per the spec: big-endian
integers, fixed-width hashes, length-prefixed sequences; signatures are
modelled as fixed 64-byte strings. -/

structure Transaction where
  nonce : Nat
  payload : List Nat
  signature : List Nat
deriving DecidableEq, Repr

def Transaction.wf (t : Transaction) : Prop :=
  t.nonce < 256 ^ 8 ∧ t.payload.length < 256 ^ 8 ∧ t.signature.length = 64

instance (t : Transaction) : Decidable t.wf := by unfold Transaction.wf; infer_instance

def Transaction.serialize (t : Transaction) : List Nat :=
  serBE 8 t.nonce ++ serBE 8 t.payload.length ++ t.payload ++ t.signature

def Transaction.deserialize (l : List Nat) : Option (Transaction × List Nat) := do
  let (nonce, l1) ← deserBE 8 l
  let (plen, l2) ← deserBE 8 l1
  let (payload, l3) ← deserBytes plen l2
  let (sigBytes, l4) ← deserBytes 64 l3
  return (⟨nonce, payload, sigBytes⟩, l4)

structure TransactionList where
  transactions : List Transaction
deriving DecidableEq, Repr

def TransactionList.wf (txl : TransactionList) : Prop :=
  txl.transactions.length < 256 ^ 8 ∧ ∀ t ∈ txl.transactions, t.wf

instance (txl : TransactionList) : Decidable txl.wf := by
  unfold TransactionList.wf; infer_instance

def TransactionList.serialize (txl : TransactionList) : List Nat :=
  serBE 8 txl.transactions.length ++ serList Transaction.serialize txl.transactions

def TransactionList.deserialize (l : List Nat) : Option (TransactionList × List Nat) := do
  let (n, l1) ← deserBE 8 l
  let (ts, l2) ← deserN Transaction.deserialize n l1
  return (⟨ts⟩, l2)

/-- Merkle-style root of a transaction list, modelled from the spec as the
digest of the concatenated transaction hashes. -/
def TransactionList.hashOf (hashFn : List Nat → Hash) (txl : TransactionList) : Hash :=
  hashFn (serList (fun t => (hashFn t.serialize).bytes) txl.transactions)

structure Vote where
  validatorIndex : Nat
  signature : List Nat
  blockHash : Hash
deriving DecidableEq, Repr

def Vote.wf (v : Vote) : Prop :=
  v.validatorIndex < 256 ^ 8 ∧ v.signature.length = 64 ∧ v.blockHash.wf

instance (v : Vote) : Decidable v.wf := by unfold Vote.wf; infer_instance

def Vote.serialize (v : Vote) : List Nat :=
  serBE 8 v.validatorIndex ++ v.signature ++ v.blockHash.serialize

def Vote.deserialize (l : List Nat) : Option (Vote × List Nat) := do
  let (idx, l1) ← deserBE 8 l
  let (sigBytes, l2) ← deserBytes 64 l1
  let (bh, l3) ← Hash.deserialize l2
  return (⟨idx, sigBytes, bh⟩, l3)

structure Consensus where
  round : Nat
  votes : List Vote
deriving DecidableEq, Repr

def Consensus.wf (c : Consensus) : Prop :=
  c.round < 256 ^ 4 ∧ c.votes.length < 256 ^ 8 ∧ ∀ v ∈ c.votes, v.wf

instance (c : Consensus) : Decidable c.wf := by
  unfold Consensus.wf; infer_instance

def Consensus.serialize (c : Consensus) : List Nat :=
  serBE 4 c.round ++ serBE 8 c.votes.length ++ serList Vote.serialize c.votes

def Consensus.deserialize (l : List Nat) : Option (Consensus × List Nat) := do
  let (round, l1) ← deserBE 4 l
  let (n, l2) ← deserBE 8 l1
  let (vs, l3) ← deserN Vote.deserialize n l2
  return (⟨round, vs⟩, l3)

/-- Digest of a commit certificate over its canonical bytes. -/
def Consensus.hashOf (hashFn : List Nat → Hash) (c : Consensus) : Hash :=
  hashFn c.serialize

structure Validator where
  address : List Nat
  votingPower : Nat
deriving DecidableEq, Repr

def Validator.serialize (v : Validator) : List Nat :=
  serBE 8 v.address.length ++ v.address ++ serBE 8 v.votingPower

structure ValidatorSet where
  validators : List Validator
deriving DecidableEq, Repr

def ValidatorSet.serialize (vs : ValidatorSet) : List Nat :=
  serBE 8 vs.validators.length ++ serList Validator.serialize vs.validators

/-- Deterministic root of a validator set over its canonical bytes. -/
def ValidatorSet.hashOf (hashFn : List Nat → Hash) (vs : ValidatorSet) : Hash :=
  hashFn vs.serialize

/-! ## BlockHeader — src/packages/blockchain/src/block.ts lines 14-53
(identical in src/unnamed/part_002) -/

structure BlockHeader where
  height : Nat
  timestamp : Nat
  lastBlockHash : Hash
  transactionRoot : Hash
  lastBlockConsensusRoot : Hash
  nextValidatorSetRoot : Hash
  appStateHash : Hash
deriving DecidableEq, Repr

def BlockHeader.wf (h : BlockHeader) : Prop :=
  h.height < 256 ^ 8 ∧ h.timestamp < 256 ^ 8 ∧ h.lastBlockHash.wf ∧ h.transactionRoot.wf ∧
  h.lastBlockConsensusRoot.wf ∧ h.nextValidatorSetRoot.wf ∧ h.appStateHash.wf

instance (h : BlockHeader) : Decidable h.wf := by unfold BlockHeader.wf; infer_instance

/-- BlockHeader.serialize: UInt64 height, UInt64 timestamp, then the five
hashes, in source order. -/
def BlockHeader.serialize (h : BlockHeader) : List Nat :=
  serBE 8 h.height ++ serBE 8 h.timestamp ++ h.lastBlockHash.serialize ++
  h.transactionRoot.serialize ++ h.lastBlockConsensusRoot.serialize ++
  h.nextValidatorSetRoot.serialize ++ h.appStateHash.serialize

/-- BlockHeader.deserialize: reads the fields back in the same order. -/
def BlockHeader.deserialize (l : List Nat) : Option (BlockHeader × List Nat) := do
  let (height, l1) ← deserBE 8 l
  let (timestamp, l2) ← deserBE 8 l1
  let (lastBlockHash, l3) ← Hash.deserialize l2
  let (transactionRoot, l4) ← Hash.deserialize l3
  let (lastBlockConsensusRoot, l5) ← Hash.deserialize l4
  let (nextValidatorSetRoot, l6) ← Hash.deserialize l5
  let (appStateHash, l7) ← Hash.deserialize l6
  return (⟨height, timestamp, lastBlockHash, transactionRoot, lastBlockConsensusRoot,
    nextValidatorSetRoot, appStateHash⟩, l7)

/-- The hash the BlockHeader constructor stores: Hash.fromData(serialize(this)). -/
def BlockHeader.hashOf (hashFn : List Nat → Hash) (h : BlockHeader) : Hash :=
  hashFn h.serialize

/-! ## Block of the blockchain package — src/packages/blockchain/src/block.ts
lines 55-110. The body carries only the transaction list and the last block
consensus; validation compares the two corresponding header roots. -/

namespace Blockchain

structure BlockBody where
  transactionList : TransactionList
  lastBlockConsensus : Consensus
deriving DecidableEq, Repr

def BlockBody.wf (b : BlockBody) : Prop :=
  b.transactionList.wf ∧ b.lastBlockConsensus.wf

instance (b : BlockBody) : Decidable b.wf := by
  unfold BlockBody.wf; infer_instance

def BlockBody.serialize (b : BlockBody) : List Nat :=
  b.transactionList.serialize ++ b.lastBlockConsensus.serialize

def BlockBody.deserialize (l : List Nat) : Option (BlockBody × List Nat) := do
  let (transactions, l1) ← TransactionList.deserialize l
  let (consensus, l2) ← Consensus.deserialize l1
  return (⟨transactions, consensus⟩, l2)

/-- BlockBody.validate(header): throws on the first mismatched root, with the
source's error strings. -/
def BlockBody.validate (hashFn : List Nat → Hash) (b : BlockBody) (header : BlockHeader) :
    Except String Unit :=
  if ¬(header.transactionRoot = b.transactionList.hashOf hashFn) then
    Except.error "invalid transactionRoot"
  else if ¬(header.lastBlockConsensusRoot = b.lastBlockConsensus.hashOf hashFn) then
    Except.error "invalid lastBlockConsensusHash"
  else Except.ok ()

structure Block where
  header : BlockHeader
  body : BlockBody
deriving DecidableEq, Repr

def Block.wf (b : Block) : Prop := b.header.wf ∧ b.body.wf

instance (b : Block) : Decidable b.wf := by
  unfold Block.wf; infer_instance

/-- The hash the Block constructor stores: this.hash = header.hash. -/
def Block.hashOf (hashFn : List Nat → Hash) (b : Block) : Hash :=
  b.header.hashOf hashFn

/-- Block.construct: builds the body, then a header whose transactionRoot and
lastBlockConsensusRoot are the body's own hashes; nextValidatorSet is taken
as a Hash argument and written into the header verbatim. -/
def Block.construct (hashFn : List Nat → Hash) (height timestamp : Nat)
    (lastBlockHash nextValidatorSet appStateHash : Hash)
    (transactions : TransactionList) (lastBlockConsensus : Consensus) : Block :=
  let body : BlockBody := ⟨transactions, lastBlockConsensus⟩
  let header : BlockHeader := ⟨height, timestamp, lastBlockHash,
    body.transactionList.hashOf hashFn, body.lastBlockConsensus.hashOf hashFn,
    nextValidatorSet, appStateHash⟩
  ⟨header, body⟩

def Block.serialize (b : Block) : List Nat :=
  b.header.serialize ++ b.body.serialize

def Block.deserialize (l : List Nat) : Option (Block × List Nat) := do
  let (header, l1) ← BlockHeader.deserialize l
  let (body, l2) ← BlockBody.deserialize l1
  return (⟨header, body⟩, l2)

/-- Block.validate(): delegates to this.body.validate(this.header). -/
def Block.validate (hashFn : List Nat → Hash) (b : Block) : Except String Unit :=
  b.body.validate hashFn b.header

end Blockchain

/-! ## Legacy Block variant — src/unnamed/part_002. The body additionally
carries the next validator set, and Block.validate checks all three header
roots directly. -/

namespace Legacy

structure BlockBody where
  transactionList : TransactionList
  lastBlockConsensus : Consensus
  nextValidatorSet : ValidatorSet
deriving DecidableEq, Repr

structure Block where
  header : BlockHeader
  body : BlockBody
deriving DecidableEq, Repr

/-- The hash the legacy Block constructor stores: this.hash = header.hash. -/
def Block.hashOf (hashFn : List Nat → Hash) (b : Block) : Hash :=
  b.header.hashOf hashFn

/-- Legacy Block.construct: all three header roots come from the body's own
component hashes. -/
def Block.construct (hashFn : List Nat → Hash) (height timestamp : Nat)
    (lastBlockHash appStateHash : Hash) (transactions : TransactionList)
    (lastBlockConsensus : Consensus) (nextValidatorSet : ValidatorSet) : Block :=
  let body : BlockBody := ⟨transactions, lastBlockConsensus, nextValidatorSet⟩
  let header : BlockHeader := ⟨height, timestamp, lastBlockHash,
    body.transactionList.hashOf hashFn, body.lastBlockConsensus.hashOf hashFn,
    body.nextValidatorSet.hashOf hashFn, appStateHash⟩
  ⟨header, body⟩

/-- Legacy Block.validate(): throws on the first of the three mismatched
roots, with the source's error strings. -/
def Block.validate (hashFn : List Nat → Hash) (b : Block) : Except String Unit :=
  if ¬(b.header.transactionRoot = b.body.transactionList.hashOf hashFn) then
    Except.error "invalid transactionRoot"
  else if ¬(b.header.lastBlockConsensusRoot = b.body.lastBlockConsensus.hashOf hashFn) then
    Except.error "invalid lastBlockConsensusHash"
  else if ¬(b.header.nextValidatorSetRoot = b.body.nextValidatorSet.hashOf hashFn) then
    Except.error "invalid nextValidatorSetRoot"
  else Except.ok ()

end Legacy

/-! ## Consensus timeouts — src/packages/chain-core/src/consensus-engine/timeout.ts.
JS numbers are modelled as exact rationals, so Math.pow(rate, round) with a
natural round is rate ^ round. -/

structure TimeoutOptions where
  proposeTimeout : ℚ
  proposeTimeoutIncreaseRate : ℚ
  prevoteTimeout : ℚ
  prevoteTimeoutIncreaseRate : ℚ
  precommitTimeout : ℚ
  precommitTimeoutIncreaseRate : ℚ
deriving DecidableEq, Repr

def TimeoutOptions.defaults : TimeoutOptions :=
  ⟨3000, 1.2, 1000, 1.2, 1000, 1.2⟩

/-- A Partial(TimeoutOptions): every field may be absent. -/
structure PartialTimeoutOptions where
  proposeTimeout : Option ℚ
  proposeTimeoutIncreaseRate : Option ℚ
  prevoteTimeout : Option ℚ
  prevoteTimeoutIncreaseRate : Option ℚ
  precommitTimeout : Option ℚ
  precommitTimeoutIncreaseRate : Option ℚ
deriving DecidableEq, Repr

def PartialTimeoutOptions.empty : PartialTimeoutOptions :=
  ⟨none, none, none, none, none, none⟩

/-- Object.assign(\x7b\x7d, TimeoutOptions.defaults, options): field-wise merge,
a present field of the partial options wins over the default. -/
def TimeoutOptions.merge (opts : PartialTimeoutOptions) : TimeoutOptions :=
  ⟨opts.proposeTimeout.getD TimeoutOptions.defaults.proposeTimeout,
   opts.proposeTimeoutIncreaseRate.getD TimeoutOptions.defaults.proposeTimeoutIncreaseRate,
   opts.prevoteTimeout.getD TimeoutOptions.defaults.prevoteTimeout,
   opts.prevoteTimeoutIncreaseRate.getD TimeoutOptions.defaults.prevoteTimeoutIncreaseRate,
   opts.precommitTimeout.getD TimeoutOptions.defaults.precommitTimeout,
   opts.precommitTimeoutIncreaseRate.getD TimeoutOptions.defaults.precommitTimeoutIncreaseRate⟩

structure ConsensusTimeout where
  options : TimeoutOptions
deriving DecidableEq, Repr

/-- The ConsensusTimeout constructor: merge the partial options over the
defaults. -/
def ConsensusTimeout.ofPartial (opts : PartialTimeoutOptions) : ConsensusTimeout :=
  ⟨TimeoutOptions.merge opts⟩

def ConsensusTimeout.propose (ct : ConsensusTimeout) (round : Nat) : ℚ :=
  ct.options.proposeTimeout * ct.options.proposeTimeoutIncreaseRate ^ round

def ConsensusTimeout.prevote (ct : ConsensusTimeout) (round : Nat) : ℚ :=
  ct.options.prevoteTimeout * ct.options.prevoteTimeoutIncreaseRate ^ round

def ConsensusTimeout.precommit (ct : ConsensusTimeout) (round : Nat) : ℚ :=
  ct.options.precommitTimeout * ct.options.precommitTimeoutIncreaseRate ^ round

/-! ## Node — src/packages/chain-core/src/node.ts. The handshake hello
handler, the ordered shutdown, and the error-stream handlers are embedded as
pure functions; the remote-node set (remote-node.ts, not under src/) is
modelled from the spec as the set of peers with their protocol handles and
reported heights, here a list of (peerId, height) records. -/

structure RemoteNode where
  peerId : String
  height : Nat
deriving DecidableEq, Repr

/-- Modelled from the spec: the observable node state the embedded handlers
touch — the remote-node set, the peers dropped from the overlay, and the
count of newNode signals sent to the synchronizer. -/
structure NodeState where
  remoteNode : List RemoteNode
  droppedPeers : List String
  syncNewNodeSignals : Nat
deriving DecidableEq, Repr

/-- A Hello message: reported height and genesis hash. -/
structure HelloMsg where
  height : Nat
  genesis : Hash
deriving DecidableEq, Repr

/-- Node.addRemoteNode: this.remoteNode.add(node); this.synchronizer.newNode(). -/
def Node.addRemoteNode (s : NodeState) (node : RemoteNode) : NodeState :=
  { s with remoteNode := s.remoteNode ++ [node],
           syncNewNodeSignals := s.syncNewNodeSignals + 1 }

/-- Node.dropPeer: this.network.dropPeer(id). -/
def Node.dropPeer (s : NodeState) (id : String) : NodeState :=
  { s with droppedPeers := s.droppedPeers ++ [id] }

/-- Node.hello(msg, protocol): register the peer with its reported height when
genesis hashes agree, else drop it. -/
def Node.hello (genesisHash : Hash) (s : NodeState) (msg : HelloMsg) (peerId : String) :
    NodeState :=
  if msg.genesis = genesisHash then
    Node.addRemoteNode s ⟨peerId, msg.height⟩
  else
    Node.dropPeer s peerId

/-- One observable action of the ordered shutdown. -/
inductive StopEvent where
  | closeProtocol : String → StopEvent
  | stopNetwork : StopEvent
  | stopConsensusEngine : StopEvent
  | stopSynchronizer : StopEvent
  | stopExecutor : StopEvent
  | closeStore : StopEvent
deriving DecidableEq, Repr

/-- Node.stop(): end every remote protocol handle, then stop the network, the
consensus engine, the synchronizer, and the executor, in source order. -/
def Node.stop (s : NodeState) : List StopEvent :=
  s.remoteNode.map (fun n => StopEvent.closeProtocol n.peerId) ++
  [StopEvent.stopNetwork, StopEvent.stopConsensusEngine,
   StopEvent.stopSynchronizer, StopEvent.stopExecutor]

/-- The one error message both error handlers swallow. -/
def socketClosedMessage : String := "underlying socket has been closed"

/-- The network.onError handler: swallow the closed-socket message, emit
anything else on the error stream (some = emitted). -/
def Node.handleNetworkError (msg : String) : Option String :=
  if msg = socketClosedMessage then none else some msg

/-- The protocol.onError handler installed during handshake: same policy. -/
def Node.handleProtocolError (msg : String) : Option String :=
  if msg = socketClosedMessage then none else some msg

/-! ## Concrete sample values used by closed witnesses and counterexamples -/

/-- A concrete 32-byte digest: the big-endian bytes of `k`. -/
def sampleHash (k : Nat) : Hash := ⟨serBE 32 k⟩

def sampleTransaction : Transaction := ⟨1, [7, 8], serBE 64 0⟩

def sampleTransactionList : TransactionList := ⟨[sampleTransaction]⟩

def sampleVote : Vote := ⟨0, serBE 64 1, sampleHash 9⟩

def sampleConsensus : Consensus := ⟨1, [sampleVote]⟩

def sampleValidatorSet : ValidatorSet := ⟨[⟨serBE 20 3, 10⟩]⟩

def sampleHeader : BlockHeader :=
  ⟨5, 1234, sampleHash 1, sampleHash 2, sampleHash 3, sampleHash 4, sampleHash 5⟩

def sampleBlock : Blockchain.Block :=
  ⟨sampleHeader, ⟨sampleTransactionList, sampleConsensus⟩⟩

/-- The empty body of the blockchain-package Block: no transactions, an empty
round-0 commit certificate. -/
def emptyBody : Blockchain.BlockBody := ⟨⟨[]⟩, ⟨0, []⟩⟩

/-- A blockchain-package block over `emptyBody` whose first two header roots
are the body's own hashes and whose nextValidatorSetRoot is the arbitrary
digest `sampleHash k`. -/
def blockWithValidatorRoot (k : Nat) : Blockchain.Block :=
  ⟨⟨0, 0, sampleHash 0, TransactionList.hashOf modelHash ⟨[]⟩,
    Consensus.hashOf modelHash ⟨0, []⟩, sampleHash k, sampleHash 0⟩,
   emptyBody⟩

/-! ## Round-trip lemmas for the serialization primitives -/

theorem serBE_length (w n : Nat) : (serBE w n).length = w := by
  induction w generalizing n with
  | zero => rfl
  | succ w ih => simp [serBE, ih]

theorem serBE_bytes (w n : Nat) : ∀ b ∈ serBE w n, b < 256 := by
  induction w generalizing n with
  | zero => simp [serBE]
  | succ w ih =>
    intro b hb
    simp only [serBE, List.mem_cons] at hb
    rcases hb with rfl | hb
    · exact Nat.mod_lt _ (by norm_num)
    · exact ih n b hb

theorem deserBEAux_serBE (w : Nat) : ∀ (acc n : Nat) (r : List Nat),
    deserBEAux w acc (serBE w n ++ r) = some (acc * 256 ^ w + n % 256 ^ w, r) := by
  induction w with
  | zero => intro acc n r; simp [serBE, deserBEAux, Nat.mod_one]
  | succ w ih =>
    intro acc n r
    have hstep : (acc * 256 + n / 256 ^ w % 256) * 256 ^ w + n % 256 ^ w
        = acc * 256 ^ (w + 1) + n % 256 ^ (w + 1) := by
      have hmul : 256 ^ (w + 1) = 256 ^ w * 256 := by ring
      have hmod : n % (256 ^ w * 256) = n % 256 ^ w + 256 ^ w * (n / 256 ^ w % 256) :=
        Nat.mod_mul
      rw [hmul, hmod]; ring
    simp only [serBE, List.cons_append, deserBEAux, List.append_eq]
    rw [ih, hstep]

/-- Round trip for big-endian integers: writing a value that fits in `w` bytes
and reading `w` bytes back recovers the value and leaves the tail untouched. -/
theorem deserBE_serBE {w n : Nat} (h : n < 256 ^ w) (r : List Nat) :
    deserBE w (serBE w n ++ r) = some (n, r) := by
  unfold deserBE
  rw [deserBEAux_serBE, Nat.zero_mul, Nat.zero_add, Nat.mod_eq_of_lt h]

theorem deserBytes_append {w : Nat} {b : List Nat} (h : b.length = w) (r : List Nat) :
    deserBytes w (b ++ r) = some (b, r) := by
  unfold deserBytes
  have hle : w ≤ (b ++ r).length := by simp [h]
  rw [if_pos hle, List.take_append_of_le_length (by omega), List.drop_append_of_le_length (by omega)]
  simp [h]

theorem hash_roundtrip {h : Hash} (hwf : h.wf) (r : List Nat) :
    Hash.deserialize (h.serialize ++ r) = some (h, r) := by
  unfold Hash.deserialize Hash.serialize
  rw [deserBytes_append hwf]

theorem modelHash_wf (l : List Nat) : (modelHash l).wf := by
  unfold modelHash Hash.wf
  exact serBE_length 32 _

theorem deserN_serList {α : Type} {deser : List Nat → Option (α × List Nat)}
    {ser : α → List Nat} {xs : List α}
    (h : ∀ x ∈ xs, ∀ r, deser (ser x ++ r) = some (x, r)) (r : List Nat) :
    deserN deser xs.length (serList ser xs ++ r) = some (xs, r) := by
  induction xs with
  | nil => simp [serList, deserN]
  | cons x xs ih =>
      simp only [serList, List.append_assoc, List.length_cons, deserN]
      rw [h x (by simp)]
      simp only [Option.bind_eq_bind, Option.some_bind]
      rw [ih (fun y hy => h y (by simp [hy]))]
      rfl

theorem transaction_roundtrip {t : Transaction} (h : t.wf) (r : List Nat) :
    Transaction.deserialize (t.serialize ++ r) = some (t, r) := by
  obtain ⟨h1, h2, h3⟩ := h
  simp only [Transaction.serialize, List.append_assoc, Transaction.deserialize]
  rw [deserBE_serBE h1]
  simp only [Option.bind_eq_bind, Option.some_bind]
  rw [deserBE_serBE h2]
  simp only [Option.bind_eq_bind, Option.some_bind]
  rw [deserBytes_append rfl]
  simp only [Option.bind_eq_bind, Option.some_bind]
  rw [deserBytes_append h3]
  rfl

theorem transactionList_roundtrip {txl : TransactionList} (h : txl.wf)
    (r : List Nat) : TransactionList.deserialize (txl.serialize ++ r) = some (txl, r) := by
  obtain ⟨h1, h2⟩ := h
  simp only [TransactionList.serialize, List.append_assoc, TransactionList.deserialize]
  rw [deserBE_serBE h1]
  simp only [Option.bind_eq_bind, Option.some_bind]
  rw [deserN_serList (fun t ht => transaction_roundtrip (h2 t ht)) r]
  rfl

theorem vote_roundtrip {v : Vote} (h : v.wf) (r : List Nat) :
    Vote.deserialize (v.serialize ++ r) = some (v, r) := by
  obtain ⟨h1, h2, h3⟩ := h
  simp only [Vote.serialize, List.append_assoc, Vote.deserialize]
  rw [deserBE_serBE h1]
  simp only [Option.bind_eq_bind, Option.some_bind]
  rw [deserBytes_append h2]
  simp only [Option.bind_eq_bind, Option.some_bind]
  rw [hash_roundtrip h3]
  rfl

theorem consensus_roundtrip {c : Consensus} (h : c.wf) (r : List Nat) :
    Consensus.deserialize (c.serialize ++ r) = some (c, r) := by
  obtain ⟨h1, h2, h3⟩ := h
  simp only [Consensus.serialize, List.append_assoc, Consensus.deserialize]
  rw [deserBE_serBE h1]
  simp only [Option.bind_eq_bind, Option.some_bind]
  rw [deserBE_serBE h2]
  simp only [Option.bind_eq_bind, Option.some_bind]
  rw [deserN_serList (fun v hv => vote_roundtrip (h3 v hv)) r]
  rfl

theorem blockHeader_roundtrip {h : BlockHeader} (hwf : h.wf) (r : List Nat) :
    BlockHeader.deserialize (h.serialize ++ r) = some (h, r) := by
  obtain ⟨h1, h2, h3, h4, h5, h6, h7⟩ := hwf
  simp only [BlockHeader.serialize, List.append_assoc, BlockHeader.deserialize]
  rw [deserBE_serBE h1]
  simp only [Option.bind_eq_bind, Option.some_bind]
  rw [deserBE_serBE h2]
  simp only [Option.bind_eq_bind, Option.some_bind]
  rw [hash_roundtrip h3]
  simp only [Option.bind_eq_bind, Option.some_bind]
  rw [hash_roundtrip h4]
  simp only [Option.bind_eq_bind, Option.some_bind]
  rw [hash_roundtrip h5]
  simp only [Option.bind_eq_bind, Option.some_bind]
  rw [hash_roundtrip h6]
  simp only [Option.bind_eq_bind, Option.some_bind]
  rw [hash_roundtrip h7]
  rfl

namespace Blockchain

theorem blockBody_roundtrip {b : BlockBody} (hwf : b.wf) (r : List Nat) :
    BlockBody.deserialize (b.serialize ++ r) = some (b, r) := by
  obtain ⟨h1, h2⟩ := hwf
  simp only [BlockBody.serialize, List.append_assoc, BlockBody.deserialize]
  rw [transactionList_roundtrip h1]
  simp only [Option.bind_eq_bind, Option.some_bind]
  rw [consensus_roundtrip h2]
  rfl

theorem block_roundtrip {b : Block} (hwf : b.wf) (r : List Nat) :
    Block.deserialize (b.serialize ++ r) = some (b, r) := by
  obtain ⟨h1, h2⟩ := hwf
  simp only [Block.serialize, List.append_assoc, Block.deserialize]
  rw [blockHeader_roundtrip h1]
  simp only [Option.bind_eq_bind, Option.some_bind]
  rw [blockBody_roundtrip h2]
  rfl

end Blockchain

/-! ## Claim theorems -/

/-- C4: with default timeout options, for every round r, propose(r) is
3000 * 1.2^r ms, prevote(r) is 1000 * 1.2^r ms, and precommit(r) is
1000 * 1.2^r ms. -/
theorem C4_default_timeout_values : ∀ round : Nat,
    (ConsensusTimeout.ofPartial PartialTimeoutOptions.empty).propose round
      = 3000 * (6 / 5 : ℚ) ^ round ∧
    (ConsensusTimeout.ofPartial PartialTimeoutOptions.empty).prevote round
      = 1000 * (6 / 5 : ℚ) ^ round ∧
    (ConsensusTimeout.ofPartial PartialTimeoutOptions.empty).precommit round
      = 1000 * (6 / 5 : ℚ) ^ round := by
  intro round
  refine ⟨?_, ?_, ?_⟩ <;>
    norm_num [ConsensusTimeout.propose, ConsensusTimeout.prevote, ConsensusTimeout.precommit,
      ConsensusTimeout.ofPartial, TimeoutOptions.merge, TimeoutOptions.defaults,
      PartialTimeoutOptions.empty]

/-- C5: when a base timeout is positive and its increase rate exceeds 1 (as
the defaults are), the corresponding timeout is strictly increasing in the
round number. -/
theorem C5_timeouts_strictly_increasing : ∀ (ct : ConsensusTimeout) (round : Nat),
    (0 < ct.options.proposeTimeout → 1 < ct.options.proposeTimeoutIncreaseRate →
      ct.propose round < ct.propose (round + 1)) ∧
    (0 < ct.options.prevoteTimeout → 1 < ct.options.prevoteTimeoutIncreaseRate →
      ct.prevote round < ct.prevote (round + 1)) ∧
    (0 < ct.options.precommitTimeout → 1 < ct.options.precommitTimeoutIncreaseRate →
      ct.precommit round < ct.precommit (round + 1)) := by
  intro ct round
  refine ⟨fun hb hr => ?_, fun hb hr => ?_, fun hb hr => ?_⟩ <;>
  · first
      | unfold ConsensusTimeout.propose
      | unfold ConsensusTimeout.prevote
      | unfold ConsensusTimeout.precommit
    have hpow := pow_lt_pow_right₀ hr (Nat.lt_succ_self round)
    exact mul_lt_mul_of_pos_left hpow hb

/-- C5 witness: at the default options and round 0, the bases are positive,
the rates exceed 1, and all three timeouts strictly grow from round 0 to 1. -/
theorem C5_witness :
    (0 < (ConsensusTimeout.ofPartial PartialTimeoutOptions.empty).options.proposeTimeout ∧
     1 < (ConsensusTimeout.ofPartial PartialTimeoutOptions.empty).options.proposeTimeoutIncreaseRate) ∧
    (ConsensusTimeout.ofPartial PartialTimeoutOptions.empty).propose 0
      < (ConsensusTimeout.ofPartial PartialTimeoutOptions.empty).propose 1 ∧
    (ConsensusTimeout.ofPartial PartialTimeoutOptions.empty).prevote 0
      < (ConsensusTimeout.ofPartial PartialTimeoutOptions.empty).prevote 1 ∧
    (ConsensusTimeout.ofPartial PartialTimeoutOptions.empty).precommit 0
      < (ConsensusTimeout.ofPartial PartialTimeoutOptions.empty).precommit 1 :=
  ⟨⟨by norm_num [ConsensusTimeout.ofPartial, TimeoutOptions.merge, TimeoutOptions.defaults,
      PartialTimeoutOptions.empty],
    by norm_num [ConsensusTimeout.ofPartial, TimeoutOptions.merge, TimeoutOptions.defaults,
      PartialTimeoutOptions.empty]⟩,
   (C5_timeouts_strictly_increasing (ConsensusTimeout.ofPartial PartialTimeoutOptions.empty) 0).1
     (by norm_num [ConsensusTimeout.ofPartial, TimeoutOptions.merge, TimeoutOptions.defaults,
       PartialTimeoutOptions.empty])
     (by norm_num [ConsensusTimeout.ofPartial, TimeoutOptions.merge, TimeoutOptions.defaults,
       PartialTimeoutOptions.empty]),
   (C5_timeouts_strictly_increasing (ConsensusTimeout.ofPartial PartialTimeoutOptions.empty) 0).2.1
     (by norm_num [ConsensusTimeout.ofPartial, TimeoutOptions.merge, TimeoutOptions.defaults,
       PartialTimeoutOptions.empty])
     (by norm_num [ConsensusTimeout.ofPartial, TimeoutOptions.merge, TimeoutOptions.defaults,
       PartialTimeoutOptions.empty]),
   (C5_timeouts_strictly_increasing (ConsensusTimeout.ofPartial PartialTimeoutOptions.empty) 0).2.2
     (by norm_num [ConsensusTimeout.ofPartial, TimeoutOptions.merge, TimeoutOptions.defaults,
       PartialTimeoutOptions.empty])
     (by norm_num [ConsensusTimeout.ofPartial, TimeoutOptions.merge, TimeoutOptions.defaults,
       PartialTimeoutOptions.empty])⟩

/-- C8: an error whose message is exactly the closed-socket string is
swallowed (never emitted on the error stream) by both the network error
handler and the peer-protocol error handler; any other message is emitted. -/
theorem C8_socket_errors_swallowed : ∀ msg : String,
    (Node.handleNetworkError msg = none ↔ msg = "underlying socket has been closed") ∧
    (Node.handleProtocolError msg = none ↔ msg = "underlying socket has been closed") ∧
    (msg ≠ "underlying socket has been closed" →
      Node.handleNetworkError msg = some msg ∧ Node.handleProtocolError msg = some msg) := by
  intro msg
  unfold Node.handleNetworkError Node.handleProtocolError socketClosedMessage
  by_cases h : msg = "underlying socket has been closed" <;> simp [h]

/-- C8 witness: the closed-socket message is swallowed by both handlers, and a
different message is emitted by both. -/
theorem C8_witness :
    Node.handleNetworkError "underlying socket has been closed" = none ∧
    Node.handleProtocolError "underlying socket has been closed" = none ∧
    ("connection reset" : String) ≠ "underlying socket has been closed" ∧
    Node.handleNetworkError "connection reset" = some "connection reset" ∧
    Node.handleProtocolError "connection reset" = some "connection reset" :=
  ⟨(C8_socket_errors_swallowed "underlying socket has been closed").1.mpr rfl,
   (C8_socket_errors_swallowed "underlying socket has been closed").2.1.mpr rfl,
   by decide,
   ((C8_socket_errors_swallowed "connection reset").2.2 (by decide)).1,
   ((C8_socket_errors_swallowed "connection reset").2.2 (by decide)).2⟩

/-- C6: on a Hello whose genesis hash matches the local genesis, the peer is
registered in the remote-node set with its reported height and nothing is
dropped; on a mismatch the remote-node set is unchanged (same contents, hence
same size) and the peer is dropped. -/
theorem C6_hello_genesis_check :
    ∀ (genesisHash : Hash) (s : NodeState) (msg : HelloMsg) (peerId : String),
    (msg.genesis = genesisHash →
      (Node.hello genesisHash s msg peerId).remoteNode
        = s.remoteNode ++ [⟨peerId, msg.height⟩] ∧
      (⟨peerId, msg.height⟩ : RemoteNode) ∈ (Node.hello genesisHash s msg peerId).remoteNode ∧
      (Node.hello genesisHash s msg peerId).droppedPeers = s.droppedPeers) ∧
    (msg.genesis ≠ genesisHash →
      (Node.hello genesisHash s msg peerId).remoteNode = s.remoteNode ∧
      (Node.hello genesisHash s msg peerId).remoteNode.length = s.remoteNode.length ∧
      peerId ∈ (Node.hello genesisHash s msg peerId).droppedPeers) := by
  intro genesisHash s msg peerId
  unfold Node.hello Node.addRemoteNode Node.dropPeer
  by_cases h : msg.genesis = genesisHash <;> simp [h]

/-- C6 witness: with local genesis sampleHash 0, a matching Hello from peer A
registers A at its reported height 7; a mismatching Hello from peer B leaves
the one-node set unchanged and drops B. -/
theorem C6_witness :
    (Node.hello (sampleHash 0) ⟨[], [], 0⟩ ⟨7, sampleHash 0⟩ "A").remoteNode
      = [] ++ [⟨"A", 7⟩] ∧
    (Node.hello (sampleHash 0) ⟨[⟨"A", 7⟩], [], 1⟩ ⟨9, sampleHash 1⟩ "B").remoteNode.length
      = 1 ∧
    "B" ∈ (Node.hello (sampleHash 0) ⟨[⟨"A", 7⟩], [], 1⟩ ⟨9, sampleHash 1⟩ "B").droppedPeers :=
  ⟨((C6_hello_genesis_check (sampleHash 0) ⟨[], [], 0⟩ ⟨7, sampleHash 0⟩ "A").1 rfl).1,
   ((C6_hello_genesis_check (sampleHash 0) ⟨[⟨"A", 7⟩], [], 1⟩ ⟨9, sampleHash 1⟩ "B").2
     (by decide)).2.1,
   ((C6_hello_genesis_check (sampleHash 0) ⟨[⟨"A", 7⟩], [], 1⟩ ⟨9, sampleHash 1⟩ "B").2
     (by decide)).2.2⟩

/-- C7 counterexample: on a node with one remote peer, stop() closes the
protocol handle, stops the network, the consensus engine, the synchronizer
and the executor — and never closes the blockchain store, contradicting the
claim that the final step closes the store. -/
theorem C7_counterexample :
    Node.stop ⟨[⟨"A", 3⟩], [], 0⟩ =
      [StopEvent.closeProtocol "A", StopEvent.stopNetwork, StopEvent.stopConsensusEngine,
       StopEvent.stopSynchronizer, StopEvent.stopExecutor] ∧
    StopEvent.closeStore ∉ Node.stop ⟨[⟨"A", 3⟩], [], 0⟩ :=
  ⟨rfl, by decide⟩

/-- C1 counterexample: in the blockchain package, two concrete blocks sharing
one body but carrying different nextValidatorSetRoot digests both validate,
so validation success does not depend on any nextValidatorSetRoot equality
(the body has no nextValidatorSet for the root to be checked against). -/
theorem C1_counterexample :
    Blockchain.Block.validate modelHash (blockWithValidatorRoot 1) = Except.ok () ∧
    Blockchain.Block.validate modelHash (blockWithValidatorRoot 2) = Except.ok () ∧
    (blockWithValidatorRoot 1).body = (blockWithValidatorRoot 2).body ∧
    (blockWithValidatorRoot 1).header.nextValidatorSetRoot
      ≠ (blockWithValidatorRoot 2).header.nextValidatorSetRoot :=
  ⟨rfl, rfl, rfl, by decide⟩

/-- C1 (amended): in the legacy part_002 variant, Block.validate succeeds iff
all three header roots equal the corresponding body component hashes, and a
failure names the first mismatched root; in the blockchain package the body
has no nextValidatorSet, and validation succeeds iff the transactionRoot and
lastBlockConsensusRoot equalities hold — nextValidatorSetRoot is never
checked. -/
theorem C1_validation_root_equalities : ∀ (hashFn : List Nat → Hash),
    (∀ b : Legacy.Block,
      (Legacy.Block.validate hashFn b = Except.ok () ↔
        b.header.transactionRoot = b.body.transactionList.hashOf hashFn ∧
        b.header.lastBlockConsensusRoot = b.body.lastBlockConsensus.hashOf hashFn ∧
        b.header.nextValidatorSetRoot = b.body.nextValidatorSet.hashOf hashFn) ∧
      (Legacy.Block.validate hashFn b = Except.error "invalid transactionRoot" ↔
        ¬ b.header.transactionRoot = b.body.transactionList.hashOf hashFn) ∧
      (Legacy.Block.validate hashFn b = Except.error "invalid lastBlockConsensusHash" ↔
        b.header.transactionRoot = b.body.transactionList.hashOf hashFn ∧
        ¬ b.header.lastBlockConsensusRoot = b.body.lastBlockConsensus.hashOf hashFn) ∧
      (Legacy.Block.validate hashFn b = Except.error "invalid nextValidatorSetRoot" ↔
        b.header.transactionRoot = b.body.transactionList.hashOf hashFn ∧
        b.header.lastBlockConsensusRoot = b.body.lastBlockConsensus.hashOf hashFn ∧
        ¬ b.header.nextValidatorSetRoot = b.body.nextValidatorSet.hashOf hashFn)) ∧
    (∀ b : Blockchain.Block,
      (Blockchain.Block.validate hashFn b = Except.ok () ↔
        b.header.transactionRoot = b.body.transactionList.hashOf hashFn ∧
        b.header.lastBlockConsensusRoot = b.body.lastBlockConsensus.hashOf hashFn) ∧
      (Blockchain.Block.validate hashFn b = Except.error "invalid transactionRoot" ↔
        ¬ b.header.transactionRoot = b.body.transactionList.hashOf hashFn) ∧
      (Blockchain.Block.validate hashFn b = Except.error "invalid lastBlockConsensusHash" ↔
        b.header.transactionRoot = b.body.transactionList.hashOf hashFn ∧
        ¬ b.header.lastBlockConsensusRoot = b.body.lastBlockConsensus.hashOf hashFn)) := by
  intro hashFn
  constructor
  · intro b
    unfold Legacy.Block.validate
    split_ifs with h1 h2 h3 <;> simp_all
  · intro b
    unfold Blockchain.Block.validate Blockchain.BlockBody.validate
    split_ifs with h1 h2 <;> simp_all

/-- C9: blocks built by Block.construct always validate in both variants: the
constructed header's roots are the body's own component hashes, so every
error branch of validate is unreachable on a constructed block. -/
theorem C9_construct_always_validates :
    ∀ (hashFn : List Nat → Hash) (height timestamp : Nat)
      (lastBlockHash nextValidatorSetRoot appStateHash : Hash)
      (txs : TransactionList) (consensus : Consensus) (vs : ValidatorSet),
    Blockchain.Block.validate hashFn
      (Blockchain.Block.construct hashFn height timestamp lastBlockHash
        nextValidatorSetRoot appStateHash txs consensus) = Except.ok () ∧
    Legacy.Block.validate hashFn
      (Legacy.Block.construct hashFn height timestamp lastBlockHash appStateHash
        txs consensus vs) = Except.ok () := by
  intro hashFn height timestamp lastBlockHash nextValidatorSetRoot appStateHash txs consensus vs
  constructor
  · simp [Blockchain.Block.validate, Blockchain.Block.construct, Blockchain.BlockBody.validate]
  · simp [Legacy.Block.validate, Legacy.Block.construct]

/-- C10: a block's hash is its header's hash in both variants, so blocks with
equal headers share a hash regardless of their bodies. -/
theorem C10_block_hash_is_header_hash : ∀ (hashFn : List Nat → Hash),
    (∀ b : Blockchain.Block, Blockchain.Block.hashOf hashFn b = b.header.hashOf hashFn) ∧
    (∀ b1 b2 : Blockchain.Block, b1.header = b2.header →
      Blockchain.Block.hashOf hashFn b1 = Blockchain.Block.hashOf hashFn b2) ∧
    (∀ b : Legacy.Block, Legacy.Block.hashOf hashFn b = b.header.hashOf hashFn) ∧
    (∀ b1 b2 : Legacy.Block, b1.header = b2.header →
      Legacy.Block.hashOf hashFn b1 = Legacy.Block.hashOf hashFn b2) := by
  intro hashFn
  refine ⟨fun b => rfl, fun b1 b2 h => ?_, fun b => rfl, fun b1 b2 h => ?_⟩ <;>
    simp [Blockchain.Block.hashOf, Legacy.Block.hashOf, BlockHeader.hashOf, h]

/-- C10 witness: two concrete blocks with the same header but different bodies
have the same hash, in each variant. -/
theorem C10_witness :
    Blockchain.Block.hashOf modelHash ⟨sampleHeader, emptyBody⟩
      = Blockchain.Block.hashOf modelHash sampleBlock ∧
    Legacy.Block.hashOf modelHash ⟨sampleHeader, ⟨⟨[]⟩, ⟨0, []⟩, sampleValidatorSet⟩⟩
      = Legacy.Block.hashOf modelHash ⟨sampleHeader, ⟨sampleTransactionList, ⟨0, []⟩, ⟨[]⟩⟩⟩ :=
  ⟨(C10_block_hash_is_header_hash modelHash).2.1 ⟨sampleHeader, emptyBody⟩ sampleBlock rfl,
   (C10_block_hash_is_header_hash modelHash).2.2.2
     ⟨sampleHeader, ⟨⟨[]⟩, ⟨0, []⟩, sampleValidatorSet⟩⟩
     ⟨sampleHeader, ⟨sampleTransactionList, ⟨0, []⟩, ⟨[]⟩⟩⟩ rfl⟩

/-- C2: deserialize of serialize is the identity on well-formed block headers
and blocks, and re-hashing a header after a serialize/deserialize round trip
yields the original hash. -/
theorem C2_roundtrip :
    ∀ (hashFn : List Nat → Hash) (h : BlockHeader) (b : Blockchain.Block),
      h.wf → b.wf →
      BlockHeader.deserialize h.serialize = some (h, []) ∧
      (BlockHeader.deserialize h.serialize).map (fun p => p.1.hashOf hashFn)
        = some (h.hashOf hashFn) ∧
      Blockchain.Block.deserialize b.serialize = some (b, []) := by
  intro hashFn h b hwf bwf
  have hh := blockHeader_roundtrip hwf []
  rw [List.append_nil] at hh
  have hb := Blockchain.block_roundtrip bwf []
  rw [List.append_nil] at hb
  exact ⟨hh, by rw [hh]; rfl, hb⟩

/-- C2 witness: the round trip evaluated on a concrete well-formed header and
block, with the stand-in digest function. -/
theorem C2_witness :
    sampleHeader.wf ∧ sampleBlock.wf ∧
    BlockHeader.deserialize sampleHeader.serialize = some (sampleHeader, []) ∧
    (BlockHeader.deserialize sampleHeader.serialize).map (fun p => p.1.hashOf modelHash)
      = some (sampleHeader.hashOf modelHash) ∧
    Blockchain.Block.deserialize sampleBlock.serialize = some (sampleBlock, []) :=
  ⟨by decide, by decide,
   (C2_roundtrip modelHash sampleHeader sampleBlock (by decide) (by decide)).1,
   (C2_roundtrip modelHash sampleHeader sampleBlock (by decide) (by decide)).2.1,
   (C2_roundtrip modelHash sampleHeader sampleBlock (by decide) (by decide)).2.2⟩

/-- C3: the canonical bytes of a header are exactly height (8-byte big
endian), timestamp (8-byte big endian), then the five 32-byte digests in
source order — 176 bytes total with no trailing padding for a well-formed
header — and the header hash is the digest of exactly these bytes. -/
theorem C3_canonical_header_serialization :
    ∀ (hashFn : List Nat → Hash) (h : BlockHeader),
      h.serialize = serBE 8 h.height ++ serBE 8 h.timestamp ++ h.lastBlockHash.bytes ++
        h.transactionRoot.bytes ++ h.lastBlockConsensusRoot.bytes ++
        h.nextValidatorSetRoot.bytes ++ h.appStateHash.bytes ∧
      (h.wf → h.serialize.length = 176) ∧
      h.hashOf hashFn = hashFn h.serialize := by
  intro hashFn h
  refine ⟨rfl, fun hwf => ?_, rfl⟩
  obtain ⟨h1, h2, h3, h4, h5, h6, h7⟩ := hwf
  unfold Hash.wf at h3 h4 h5 h6 h7
  simp only [BlockHeader.serialize, Hash.serialize, List.length_append, serBE_length,
    h3, h4, h5, h6, h7]

/-- C3 witness: the canonical byte count and hash evaluated on a concrete
well-formed header. -/
theorem C3_witness :
    sampleHeader.wf ∧ sampleHeader.serialize.length = 176 ∧
    sampleHeader.hashOf modelHash = modelHash sampleHeader.serialize :=
  ⟨by decide,
   (C3_canonical_header_serialization modelHash sampleHeader).2.1 (by decide),
   (C3_canonical_header_serialization modelHash sampleHeader).2.2⟩

/-- C7 (amended): stop() performs the ordered shutdown close all remote
protocol handles, then stop the network, then the consensus engine, then the
synchronizer, then the executor; the blockchain store is never closed. -/
theorem C7_stop_order : ∀ s : NodeState,
    Node.stop s = s.remoteNode.map (fun n => StopEvent.closeProtocol n.peerId) ++
      [StopEvent.stopNetwork, StopEvent.stopConsensusEngine,
       StopEvent.stopSynchronizer, StopEvent.stopExecutor] ∧
    StopEvent.closeStore ∉ Node.stop s := by
  intro s
  refine ⟨rfl, ?_⟩
  unfold Node.stop
  simp

end UniqysKit
